import Mathlib

/-!
Verification of the typelist metaprogramming library and the runtime example
programs of the `cpp_templates` repository, shallowly embedded in Lean 4.

Conventions of the embedding:
* A C++ type appearing in a typelist is a value of the inductive `CType`;
  `sizeofC` gives its `sizeof` on the x86-64 LP64 data model the repository
  targets (bool/char 1, short 2, int/float 4, long/long long/double 8).
* A `Typelist<T1, ..., Tn>` is the Lean list `[T1, ..., Tn]`.
* A class template whose primary template has no member `Type` for some
  arguments (e.g. `FrontT` on the empty typelist) is an `Option`-valued
  function: `none` means the instantiation is ill-formed.
* Member access control is modelled where it matters: a member alias
  declared in a `class` body before any `public:` is private, and reading
  it from namespace scope (as the `Reverse` alias template does) is
  ill-formed.  `TypeMember` carries the accessibility flag and `accessType`
  performs the namespace-scope access.
-/

namespace Cpp

/-- The C++ object types the repository's typelist examples use. -/
inductive CType where
  | bool
  | char
  | short
  | int
  | long
  | longlong
  | float
  | double
deriving DecidableEq, Repr

/-- `sizeof` of each `CType` (x86-64 LP64). Every C++ object type has size at least 1. -/
def sizeofC : CType → Nat
  | .bool => 1
  | .char => 1
  | .short => 2
  | .int => 4
  | .long => 8
  | .longlong => 8
  | .float => 4
  | .double => 8

/-- `Typelist<Elements...>` from chapter24_typelists.hpp. -/
abbrev Typelist := List CType

/-- `FrontT`: only the partial specialization `FrontT<Typelist<Head, Tail...>>`
defines `Type`; on `Typelist<>` the instantiation is ill-formed (`none`). -/
def FrontT : Typelist → Option CType
  | [] => none
  | h :: _ => some h

/-- `PopFrontT`: only specialized for `Typelist<Head, Tail...>`; ill-formed on `Typelist<>`. -/
def PopFrontT : Typelist → Option Typelist
  | [] => none
  | _ :: t => some t

/-- `PushFrontT<Typelist<Elements...>, NewElement>::Type = Typelist<NewElement, Elements...>`. -/
def PushFrontT (l : Typelist) (x : CType) : Typelist := x :: l

/-- `IsEmpty`: primary template has `value = false`, the `Typelist<>`
specialization has `value = true`. -/
def IsEmpty : Typelist → Bool
  | [] => true
  | _ :: _ => false

/-- `IfThenElseT<Cond, TrueT, FalseT>::Type` from chapter19_implementing_traits.hpp. -/
def IfThenElse {α : Type} (cond : Bool) (t f : α) : α := if cond then t else f

/-- `LargestTypeT`: recursive case combines `Front<List>` with the recursion on
`PopFront<List>` through `IfThenElse<(sizeof(First) >= sizeof(Rest)), First, Rest>`;
the base case on the empty list yields `char`. -/
def LargestTypeT : Typelist → CType
  | [] => .char
  | h :: t =>
    IfThenElse (decide (sizeofC h ≥ sizeofC (LargestTypeT t))) h (LargestTypeT t)

/-- `PushBackRecT` / `PushBackT`: the base case pushes to the front of the empty
list, the recursive case reattaches `Front<List>` to `PushBackRecT<PopFront<List>>`. -/
def PushBackT : Typelist → CType → Typelist
  | [], x => PushFrontT [] x
  | h :: t, x => PushFrontT (PushBackT t x) h

/-- A member type alias of a class, together with its access level.
`isPublic = false` models a member declared in a `class` body before any
`public:` access specifier. -/
structure TypeMember (α : Type) where
  val : α
  isPublic : Bool

/-- Namespace-scope access `SomeClass::Type`, as performed by an alias template.
Accessing a private member, or a member of an ill-formed instantiation, is
ill-formed (`none`). -/
def accessType {α : Type} : Option (TypeMember α) → Option α
  | some m => if m.isPublic then some m.val else none
  | none => none

/-- Instantiation of `ReverseT<List>`.
The base case `class ReverseT<List, true> { using Type = List; };` declares
`Type` with the default (private) access of `class`.
The recursive case `class ReverseT<List, false> : public
PushBackT<Reverse<PopFront<List>>, Front<List>>` must expand the alias
`Reverse<PopFront<List>>`, i.e. perform a namespace-scope access of
`ReverseT<PopFront<List>>::Type`, to name its base class; if that access is
ill-formed so is the whole instantiation. -/
def ReverseTinst : Typelist → Option (TypeMember Typelist)
  | [] => some ⟨[], false⟩
  | h :: t =>
    match accessType (ReverseTinst t) with
    | none => none
    | some r => some ⟨PushBackT r h, true⟩

/-- The alias template `Reverse<List> = typename ReverseT<List>::Type`:
a namespace-scope access of the `Type` member of `ReverseT<List>`. -/
def Reverse (l : Typelist) : Option Typelist := accessType (ReverseTinst l)

/-- `ReduceT<List, F, I>`: left fold `F(...F(F(I, T1), T2)..., Tn)` over the
typelist, from part_004. `F` accumulates into a C++ type; the accumulator kind
`α` is `Typelist` when `F = PushFrontT` and `CType` when `F = LargerTypeT`. -/
def ReduceT {α : Type} : Typelist → (α → CType → α) → α → α
  | [], _, i => i
  | h :: t, f, i => ReduceT t f (f i h)

/-- `LargerTypeT<T, U> : IfThenElseT<(sizeof(T) >= sizeof(U)), T, U>` from part_004. -/
def LargerTypeT (t u : CType) : CType :=
  IfThenElse (decide (sizeofC t ≥ sizeofC u)) t u

/-- `r` is the earliest element of maximal `sizeof` in `l`: `l` splits around an
occurrence of `r` such that everything before it is strictly smaller and
everything after it is no larger. -/
def IsEarliestMax (l : Typelist) (r : CType) : Prop :=
  ∃ l₁ l₂, l = l₁ ++ r :: l₂ ∧
    (∀ y ∈ l₁, sizeofC y < sizeofC r) ∧
    (∀ y ∈ l₂, sizeofC y ≤ sizeofC r)

/-- `cpp98::do_is_prime<P, D>::value` from chapter21_templates_and_inheritance.hpp
(second document, compile-time programming): recursively checks that `P` is not
divisible by any of `D, D-1, ..., 2`.  The C++ primary template only terminates
for `D >= 2` (the base case is the `D = 2` specialization); `is_prime` never
instantiates it with `D < 2`, and the values chosen here for `D = 0, 1` are
irrelevant placeholders. -/
def do_is_prime (P : Nat) : Nat → Bool
  | 0 => false
  | 1 => false
  | 2 => P % 2 != 0
  | D + 3 => (P % (D + 3) != 0) && do_is_prime P (D + 2)

/-- `cpp98::is_prime<P>::value`: full specializations for 0, 1, 2, 3; otherwise
`do_is_prime<P, P / 2>::value`. -/
def cpp98_is_prime : Nat → Bool
  | 0 => false
  | 1 => false
  | 2 => true
  | 3 => true
  | n + 4 => do_is_prime (n + 4) ((n + 4) / 2)

/-- The loop of `cpp14::is_prime`: `for (d = 2; d <= p / 2; ++d) if (p % d == 0)
return false;` followed by `return p > 1;`, expressed as tail recursion on `d`. -/
def cpp14_loop (p : Nat) (d : Nat) : Bool :=
  if h : d ≤ p / 2 then
    if p % d == 0 then false else cpp14_loop p (d + 1)
  else
    decide (1 < p)
termination_by p / 2 + 1 - d
decreasing_by omega

/-- `cpp14::is_prime(p)`: the constexpr function, entering the loop at `d = 2`. -/
def cpp14_is_prime (p : Nat) : Bool := cpp14_loop p 2

/-- The standard iterator categories whose tags convert to
`std::input_iterator_tag` (part_001, chapter20).  `output_iterator_tag` is
omitted: calling any of the three advance templates with a pure output
iterator does not compile (no overload/branch accepts its tag). -/
inductive IteratorTag where
  | input
  | forward
  | bidirectional
  | randomAccess
deriving DecidableEq, Repr

/-- `IsRandomAccessIterator<Iter>`: the iterator category is convertible to
`std::random_access_iterator_tag`. -/
def IsRandomAccessIterator : IteratorTag → Bool
  | .randomAccess => true
  | _ => false

/-- The body of the input-iterator overload: `while (n > 0) { it++; n--; }`.
Iterator positions and distances are modelled as integers; `it++` moves the
position up by one. -/
def advance_input_loop (it : Int) (n : Int) : Int :=
  if 0 < n then advance_input_loop (it + 1) (n - 1) else it
termination_by n.toNat
decreasing_by omega

/-- `advance_dispatch`: tag dispatching picks the
`random_access_iterator_tag` overload (`it += n`) exactly when the category is
random access, and the `input_iterator_tag` overload (the counting loop)
otherwise. -/
def advance_dispatch (tag : IteratorTag) (it n : Int) : Int :=
  if IsRandomAccessIterator tag then it + n else advance_input_loop it n

/-- `advance_enable`: the `EnableIf<IsRandomAccessIterator<Iter>>` overload
does `it += n`; the mutually exclusive
`EnableIf<!IsRandomAccessIterator<Iter>>` overload runs the counting loop. -/
def advance_enable (tag : IteratorTag) (it n : Int) : Int :=
  if IsRandomAccessIterator tag then it + n else advance_input_loop it n

/-- `advance_constexpr_if`: `if constexpr (IsRandomAccessIterator<Iter>)`
does `it += n`, else the counting loop. -/
def advance_constexpr_if (tag : IteratorTag) (it n : Int) : Int :=
  if IsRandomAccessIterator tag then it + n else advance_input_loop it n

/-- `ci_char_traits::to_upper(ch) = std::toupper((unsigned char)ch)` in the
default "C" locale: an ASCII lowercase letter (byte 97..122) is mapped to the
corresponding uppercase letter, every other byte is unchanged.  Characters are
modelled as byte values (`Nat`, range 0..255). -/
def to_upper (c : Nat) : Nat := if 97 ≤ c ∧ c ≤ 122 then c - 32 else c

/-- `ci_char_traits::compare(s1, s2, n)`: walks the two buffers while `n-- != 0`,
returning -1 / 1 at the first position where the `to_upper` images differ, and
0 when `n` is exhausted.  It is invoked by `basic_string` comparison with `n`
at most the length of either buffer; both argument lists carry exactly the
compared prefix, so the count is the common length. -/
def ci_compare : List Nat → List Nat → Int
  | a :: s1, b :: s2 =>
    if to_upper a < to_upper b then -1
    else if to_upper b < to_upper a then 1
    else ci_compare s1 s2
  | _, _ => 0

/-- `ci_string = std::basic_string<char, ci_char_traits>`; the structure holds
the stored character buffer, copied verbatim from the source characters on
construction (`char_traits<char>::copy`, which `ci_char_traits` inherits). -/
structure ci_string where
  chars : List Nat

/-- `basic_string::c_str()`: the stored characters. -/
def ci_string.c_str (s : ci_string) : List Nat := s.chars

/-- `basic_string` `operator==`: the sizes must agree and
`traits::compare(lhs.data(), rhs.data(), size())` must return 0. -/
def ciEq (s t : ci_string) : Bool :=
  (s.chars.length == t.chars.length) && (ci_compare s.chars t.chars == 0)

/-- The exception types thrown anywhere in the repository: `BadTypeException`
from chapter6_enable_if.hpp is the only one. -/
inductive CppException where
  | BadTypeException
deriving DecidableEq, BEq, Repr

/-- The runtime values the toy `Any` examples would pass around. -/
inductive CppValue where
  | vInt (n : Int)
  | vChar (c : Nat)
  | vString (s : String)
deriving DecidableEq, Repr

/-- The object types those values have. -/
inductive ValType where
  | tInt
  | tChar
  | tString
deriving DecidableEq, Repr

/-- Type of a `CppValue`. -/
def typeOfValue : CppValue → ValType
  | .vInt _ => .tInt
  | .vChar _ => .tChar
  | .vString _ => .tString

/-- A heap object that the `HolderBase *held` member could target: a plain `T`
object (what `std::make_unique<T>(...)` allocates) or a `Holder<T>` object
(the only classes derived from `HolderBase`). -/
inductive HeapObj where
  | plainValue (v : CppValue)
  | holder (T : ValType) (object : CppValue)
deriving DecidableEq, Repr

/-- The static C++ types occurring in the two statements of `Any` whose
well-formedness is at issue. -/
inductive CxxType where
  | uniquePtrTo (T : ValType)
  | ptrHolderBase
  | refHolder (T : ValType)
  | refValue (T : ValType)
deriving DecidableEq, Repr

/-- The implicit conversions available between those static types: each type
converts to itself and nothing else converts.  In particular
`std::unique_ptr<T>` has no implicit conversion to any raw pointer (access to
the raw pointer is only through explicit `.get()`/`.release()`), `T` is not
derived from `HolderBase`, and `const Holder<T>&` does not convert to
`const T&` (`Holder<T>` neither derives from `T` nor declares a conversion
operator; it merely contains a `T` member). -/
def convertsTo : CxxType → CxxType → Bool
  | .uniquePtrTo T, .uniquePtrTo U => T == U
  | .ptrHolderBase, .ptrHolderBase => true
  | .refHolder T, .refHolder U => T == U
  | .refValue T, .refValue U => T == U
  | _, _ => false

/-- The toy `Any` of chapter6_enable_if.hpp (second document): `held` is the
`HolderBase*` member, `none` modelling `nullptr`. -/
structure Any where
  held : Option HeapObj

/-- Instantiating `Any::Any(T&&)` as written:
`held{std::make_unique<T>(std::forward<T>(object))}` copy-list-initializes the
raw pointer `HolderBase *held` from a `std::unique_ptr<T>` whose pointee is a
plain `T` object — not a `Holder<T>` — so the initialization is well-formed
only if `std::unique_ptr<T>` converts to `HolderBase*`.  No such conversion
exists, so the constructor template is ill-formed for every argument type;
and since declaring it suppresses the implicit default constructor, no `Any`
object can ever be created. -/
def Any.construct (v : CppValue) : Option Any :=
  if convertsTo (.uniquePtrTo (typeOfValue v)) .ptrHolderBase then
    some ⟨some (.plainValue v)⟩
  else
    none

/-- Instantiating `Any::get_value<T>()` as written: instantiation type-checks
the entire body, and the success branch `return *specific_held;` must convert
the dereferenced `const Holder<T>&` to the declared return type `const T&`,
so the member template is well-formed only if that conversion exists.  It
does not, so `get_value<T>` is ill-formed for every `T`; neither branch — the
`dynamic_cast` success path nor the `throw BadTypeException{}` else path —
is ever compiled, let alone executed.  The guarded body transcribes the
source's control flow (`dynamic_cast<const Holder<T>*>` succeeds exactly on a
`Holder<T>` pointee and returns the dereferenced holder; everything else,
a null or differently-typed `held` included, throws). -/
def Any.get_value_inst (T : ValType) :
    Option (Any → Except CppException HeapObj) :=
  if convertsTo (.refHolder T) (.refValue T) then
    some fun a =>
      match a.held with
      | some (.holder U object) =>
        if U = T then .ok (.holder U object) else .error .BadTypeException
      | some (.plainValue _) => .error .BadTypeException
      | none => .error .BadTypeException
  else
    none

/-- The I/O channels a C++ program could observably write to. -/
inductive Channel where
  | stdoutChannel
  | stderrChannel
  | fileSystem
  | network
  | externalState
deriving DecidableEq, BEq, Repr

/-- One run of an example program's `main()`: its exit code, the ordered
channel trace of its write statements (one entry per executed output
statement), and the exception escaping `main`, if any. -/
structure ProgramRun where
  exitCode : Int
  trace : List Channel
  thrown : Option CppException
deriving DecidableEq, BEq, Repr

/-- chapter4_variadic_templates.cpp `main()`: every write statement targets
`std::cout`.  In order: `variadic_print` on five arguments (one line each),
`variadic_print_line` (one fold statement), the pack-size line, the folded
sum line, the folded and line, the homogeneity line, the target-node line,
two `variadic_print_indices` calls (one `variadic_print_line` each), and the
`MockedArray` constructor line.  (`std::cout << std::boolalpha` only sets a
stream flag and emits no text.)  `main` returns 0 and throws nothing. -/
def chapter4_variadic_templates_run : ProgramRun :=
  { exitCode := 0
    trace := List.replicate 5 .stdoutChannel
      ++ [.stdoutChannel]
      ++ [.stdoutChannel]
      ++ [.stdoutChannel]
      ++ [.stdoutChannel]
      ++ [.stdoutChannel]
      ++ [.stdoutChannel]
      ++ [.stdoutChannel, .stdoutChannel]
      ++ [.stdoutChannel]
    thrown := none }

/-- chapter6_enable_if.cpp `main()`: `String("tmp")`, `String(str)` and
`String(std::move(str))` each invoke the `String` member template constructor,
whose body executes one `std::cout` statement
(`std::cout << "String::String(S &&s)" << std::endl`,
chapter6_enable_if.hpp:44-47); the remaining two constructions
(`String(str_object)` and `String(std::move(str_object))`) fall to the
implicitly generated copy and move constructors — the template is SFINAE'd
out since `std::string` is not constructible from `String` — which print
nothing.  `main` returns 0. -/
def chapter6_enable_if_run : ProgramRun :=
  { exitCode := 0
    trace := [.stdoutChannel, .stdoutChannel, .stdoutChannel]
    thrown := none }

/-- chapter11_generic_libraries.cpp `main()`: six `foreach` calls over the
eight-element fibonacci vector; each callable prints exactly one `std::cout`
line per element. -/
def chapter11_generic_libraries_run : ProgramRun :=
  { exitCode := 0, trace := List.replicate (6 * 8) .stdoutChannel, thrown := none }

/-- chapter24_typelists.cpp `main()`: only `using` alias declarations; no
output statement. -/
def chapter24_typelists_run : ProgramRun :=
  { exitCode := 0, trace := [], thrown := none }

/-- part_006 `main()` (compile-time programming examples): four `Alternative`
constructors print one `std::cout` line each; `cpp98::foo<69>` and
`cpp14::foo<69>` execute three output statements each (69 is not prime),
`cpp98::foo<31>` and `cpp14::foo<31>` two each (31 is prime); the variadic
`print` on five arguments executes five argument statements plus the final
newline statement. -/
def chapter8_compile_time_run : ProgramRun :=
  { exitCode := 0
    trace := List.replicate 4 .stdoutChannel
      ++ (List.replicate 3 .stdoutChannel ++ List.replicate 2 .stdoutChannel)
      ++ (List.replicate 3 .stdoutChannel ++ List.replicate 2 .stdoutChannel)
      ++ (List.replicate 5 .stdoutChannel ++ [.stdoutChannel])
    thrown := none }

/-- part_007 `main()` (chapter5 tricky basics): the template copy-assignment
operator prints one `std::cout` statement, `print_bitset` one, and the
`pi_approx` line one; `main` ends without `return` and so returns 0. -/
def chapter5_tricky_basics_run : ProgramRun :=
  { exitCode := 0
    trace := [.stdoutChannel, .stdoutChannel, .stdoutChannel]
    thrown := none }

/-- part_008 `main()` (ci_string test): all eight `assert` conditions hold
(case-insensitive equality through `ci_char_traits` and case-preserving
`c_str`), so nothing is printed and no handler aborts; `main` returns 0. -/
def ci_string_test_run : ProgramRun :=
  { exitCode := 0, trace := [], thrown := none }

/-- All example programs (translation units with a `main`) of the repository. -/
def programs : List ProgramRun :=
  [chapter4_variadic_templates_run,
   chapter6_enable_if_run,
   chapter11_generic_libraries_run,
   chapter24_typelists_run,
   chapter8_compile_time_run,
   chapter5_tricky_basics_run,
   ci_string_test_run]

/-- One operation on `ObjectCounter<T>` from
chapter21_templates_and_inheritance.hpp: the default, copy and move
constructors (each runs `count++`) and the destructor (`count--`). -/
inductive CounterOp where
  | defaultConstruct
  | copyConstruct
  | moveConstruct
  | destruct
deriving DecidableEq, Repr

/-- Runtime state of `ObjectCounter<T>`: the static member `count`, plus the
number of `ObjectCounter<T>` objects currently alive (the quantity `count` is
meant to track; it is determined by the history of constructor and destructor
runs, not stored by the class). -/
structure CounterState where
  count : Nat
  live : Nat
deriving DecidableEq, Repr

/-- Program start: `inline static std::size_t count{0U}`, no object alive. -/
def counterInit : CounterState := ⟨0, 0⟩

/-- An operation is only executed on legal C++ programs: the copy and move
constructors need an existing object as their source, and the destructor
only runs on an existing object. -/
def ValidCounterOp (s : CounterState) : CounterOp → Prop
  | .defaultConstruct => True
  | .copyConstruct => 0 < s.live
  | .moveConstruct => 0 < s.live
  | .destruct => 0 < s.live

/-- Effect of one operation: every constructor increments `count` and brings
one more object alive; the destructor decrements `count` and removes one. -/
def counterStep (s : CounterState) : CounterOp → CounterState
  | .defaultConstruct => ⟨s.count + 1, s.live + 1⟩
  | .copyConstruct => ⟨s.count + 1, s.live + 1⟩
  | .moveConstruct => ⟨s.count + 1, s.live + 1⟩
  | .destruct => ⟨s.count - 1, s.live - 1⟩

/-- `ObjectCounter<T>::live()`: returns the static `count`. -/
def counterLive (s : CounterState) : Nat := s.count

/-- The runtime invariant of `ObjectCounter`: the static `count` equals the
number of live objects. It does not hold of arbitrary states (e.g. not of
`⟨1, 0⟩`), only of reachable ones. -/
def CounterInv (s : CounterState) : Prop := s.count = s.live

theorem one_le_sizeofC (c : CType) : 1 ≤ sizeofC c := by
  cases c <;> simp [sizeofC]

theorem largerTypeT_assoc (a b c : CType) :
    LargerTypeT (LargerTypeT a b) c = LargerTypeT a (LargerTypeT b c) := by
  simp only [LargerTypeT, IfThenElse]
  split_ifs <;> simp_all <;> omega

theorem largestTypeT_cons (h : CType) (t : Typelist) :
    LargestTypeT (h :: t) = LargerTypeT h (LargestTypeT t) := rfl

theorem largerTypeT_eq_left {a b : CType} (h : sizeofC a ≥ sizeofC b) :
    LargerTypeT a b = a := by
  simp only [LargerTypeT, IfThenElse]
  exact if_pos (decide_eq_true h)

theorem largerTypeT_eq_right {a b : CType} (h : ¬ sizeofC a ≥ sizeofC b) :
    LargerTypeT a b = b := by
  simp only [LargerTypeT, IfThenElse]
  exact if_neg (by simpa using h)

theorem largerTypeT_char (a : CType) : LargerTypeT a .char = a :=
  largerTypeT_eq_left (by simpa [sizeofC] using one_le_sizeofC a)

theorem reduceT_largerTypeT (t : Typelist) (acc : CType) :
    ReduceT t LargerTypeT acc = LargerTypeT acc (LargestTypeT t) := by
  induction t generalizing acc with
  | nil => simp [ReduceT, LargestTypeT, largerTypeT_char]
  | cons h t ih =>
    rw [ReduceT, ih, largestTypeT_cons, ← largerTypeT_assoc]

theorem sizeofC_le_largerTypeT_left (a b : CType) :
    sizeofC a ≤ sizeofC (LargerTypeT a b) := by
  by_cases hc : sizeofC a ≥ sizeofC b
  · rw [largerTypeT_eq_left hc]
  · rw [largerTypeT_eq_right hc]; omega

theorem sizeofC_le_largerTypeT_right (a b : CType) :
    sizeofC b ≤ sizeofC (LargerTypeT a b) := by
  by_cases hc : sizeofC a ≥ sizeofC b
  · rw [largerTypeT_eq_left hc]; omega
  · rw [largerTypeT_eq_right hc]

theorem largestTypeT_le (t : Typelist) : ∀ y ∈ t, sizeofC y ≤ sizeofC (LargestTypeT t) := by
  induction t with
  | nil => simp
  | cons h t ih =>
    intro y hy
    rw [largestTypeT_cons]
    rcases List.mem_cons.mp hy with rfl | hyt
    · exact sizeofC_le_largerTypeT_left y (LargestTypeT t)
    · exact le_trans (ih y hyt) (sizeofC_le_largerTypeT_right h (LargestTypeT t))

theorem largestTypeT_earliest (h : CType) (t : Typelist) :
    IsEarliestMax (h :: t) (LargestTypeT (h :: t)) := by
  induction t generalizing h with
  | nil =>
    rw [largestTypeT_cons]
    simp only [LargestTypeT, largerTypeT_char]
    exact ⟨[], [], rfl, by simp, by simp⟩
  | cons h' t' ih =>
    rw [largestTypeT_cons]
    rcases ih h' with ⟨l₁, l₂, heq, hlt, hle⟩
    by_cases hc : sizeofC h ≥ sizeofC (LargestTypeT (h' :: t'))
    · rw [largerTypeT_eq_left hc]
      refine ⟨[], h' :: t', rfl, by simp, ?_⟩
      intro y hy
      exact le_trans (largestTypeT_le (h' :: t') y hy) hc
    · rw [largerTypeT_eq_right hc]
      refine ⟨h :: l₁, l₂, congrArg (List.cons h) heq, ?_, hle⟩
      intro y hy
      rcases List.mem_cons.mp hy with rfl | hyl
      · omega
      · exact hlt y hyl

theorem do_is_prime_iff (P : Nat) :
    ∀ k, do_is_prime P (k + 2) = true ↔ ∀ d, 2 ≤ d → d ≤ k + 2 → P % d ≠ 0 := by
  intro k
  induction k with
  | zero =>
    simp only [do_is_prime, bne_iff_ne, ne_eq]
    constructor
    · intro hp d h2 hd
      have : d = 2 := by omega
      subst this
      exact hp
    · intro hall
      exact hall 2 le_rfl le_rfl
  | succ n ih =>
    simp only [show n + 1 + 2 = n + 3 from rfl, do_is_prime, Bool.and_eq_true,
      bne_iff_ne, ne_eq, ih]
    constructor
    · rintro ⟨h1, h2⟩ d hd2 hdn
      by_cases hd : d = n + 3
      · subst hd; exact h1
      · exact h2 d hd2 (by omega)
    · intro hall
      exact ⟨hall (n + 3) (by omega) le_rfl, fun d hd2 hdn => hall d hd2 (by omega)⟩

theorem cpp14_loop_iff (p : Nat) :
    ∀ d, cpp14_loop p d = true ↔ (1 < p ∧ ∀ e, d ≤ e → e ≤ p / 2 → p % e ≠ 0) := by
  suffices main : ∀ n d, p / 2 + 1 - d ≤ n →
      (cpp14_loop p d = true ↔ (1 < p ∧ ∀ e, d ≤ e → e ≤ p / 2 → p % e ≠ 0)) from
    fun d => main (p / 2 + 1 - d) d le_rfl
  intro n
  induction n with
  | zero =>
    intro d hd
    have hgt : ¬ d ≤ p / 2 := by omega
    rw [cpp14_loop.eq_def]
    simp only [hgt, dite_false, decide_eq_true_eq]
    constructor
    · intro h1
      exact ⟨h1, fun e he1 he2 => absurd (le_trans he1 he2) (by omega)⟩
    · exact fun h => h.1
  | succ n ih =>
    intro d hd
    rw [cpp14_loop.eq_def]
    by_cases hle : d ≤ p / 2
    · simp only [hle, dite_true]
      by_cases hmod : p % d = 0
      · simp only [hmod, beq_self_eq_true, if_true]
        constructor
        · intro h; exact absurd h (by simp)
        · rintro ⟨_, hall⟩
          exact absurd hmod (hall d le_rfl hle)
      · have hb : (p % d == 0) = false := by simpa using hmod
        rw [hb, if_neg (by simp), ih (d + 1) (by omega)]
        constructor
        · rintro ⟨h1, h2⟩
          refine ⟨h1, fun e he1 he2 => ?_⟩
          by_cases he : e = d
          · subst he; exact hmod
          · exact h2 e (by omega) he2
        · rintro ⟨h1, h2⟩
          exact ⟨h1, fun e he1 he2 => h2 e (by omega) he2⟩
    · simp only [hle, dite_false, decide_eq_true_eq]
      constructor
      · intro h1
        exact ⟨h1, fun e he1 he2 => absurd (le_trans he1 he2) (by omega)⟩
      · exact fun h => h.1

theorem cpp98_is_prime_iff (N : Nat) :
    cpp98_is_prime N = true ↔ (1 < N ∧ ∀ d, 2 ≤ d → d ≤ N / 2 → N % d ≠ 0) := by
  match N with
  | 0 => simp [cpp98_is_prime]
  | 1 => simp [cpp98_is_prime]
  | 2 =>
    simp only [cpp98_is_prime, true_iff]
    exact ⟨by omega, fun d h2 hd => by omega⟩
  | 3 =>
    simp only [cpp98_is_prime, true_iff]
    exact ⟨by omega, fun d h2 hd => by omega⟩
  | (n + 4) =>
    have hhalf : (n + 4) / 2 = n / 2 + 2 := by omega
    have := do_is_prime_iff (n + 4) (n / 2)
    rw [cpp98_is_prime, hhalf, this]
    constructor
    · intro hall
      exact ⟨by omega, fun d h2 hd => hall d h2 (by omega)⟩
    · rintro ⟨_, hall⟩ d h2 hd
      exact hall d h2 (by omega)

theorem cpp14_is_prime_iff (p : Nat) :
    cpp14_is_prime p = true ↔ (1 < p ∧ ∀ d, 2 ≤ d → d ≤ p / 2 → p % d ≠ 0) :=
  cpp14_loop_iff p 2

theorem advance_input_loop_nonneg (it n : Int) (hn : 0 ≤ n) :
    advance_input_loop it n = it + n := by
  suffices main : ∀ (k : Nat) (it n : Int), 0 ≤ n → n.toNat ≤ k →
      advance_input_loop it n = it + n from
    main n.toNat it n hn le_rfl
  intro k
  induction k with
  | zero =>
    intro it n hn hk
    have h0 : n = 0 := by omega
    subst h0
    rw [advance_input_loop.eq_def]
    norm_num
  | succ k ih =>
    intro it n hn hk
    rw [advance_input_loop.eq_def]
    by_cases hpos : 0 < n
    · simp only [hpos, if_true]
      rw [ih (it + 1) (n - 1) (by omega) (by omega)]
      omega
    · simp only [hpos, if_false]
      omega

theorem advance_input_loop_nonpos (it n : Int) (hn : n ≤ 0) :
    advance_input_loop it n = it := by
  rw [advance_input_loop.eq_def]
  simp only [show ¬ 0 < n by omega, if_false]

theorem iterate_incr (it : Int) (k : Nat) : (fun p => p + 1)^[k] it = it + k := by
  induction k generalizing it with
  | zero => simp
  | succ k ih =>
    rw [Function.iterate_succ_apply, ih]
    omega

theorem ci_compare_eq_zero_iff :
    ∀ s t : List Nat, s.length = t.length →
      (ci_compare s t = 0 ↔ s.map to_upper = t.map to_upper) := by
  intro s
  induction s with
  | nil =>
    intro t ht
    cases t with
    | nil => simp [ci_compare]
    | cons b t' => simp at ht
  | cons a s' ih =>
    intro t ht
    cases t with
    | nil => simp at ht
    | cons b t' =>
      have hlen : s'.length = t'.length := by simpa using ht
      rcases lt_trichotomy (to_upper a) (to_upper b) with h1 | h1 | h1
      · have hv : ci_compare (a :: s') (b :: t') = -1 := by
          simp [ci_compare, h1]
        rw [hv]
        simp only [List.map_cons, List.cons.injEq]
        constructor
        · intro h; omega
        · rintro ⟨he, _⟩; omega
      · have hab : ¬ to_upper a < to_upper b := by omega
        have hba : ¬ to_upper b < to_upper a := by omega
        have hv : ci_compare (a :: s') (b :: t') = ci_compare s' t' := by
          simp [ci_compare, hab, hba]
        rw [hv, ih t' hlen]
        simp [h1]
      · have hab : ¬ to_upper a < to_upper b := by omega
        have hv : ci_compare (a :: s') (b :: t') = 1 := by
          simp [ci_compare, hab, h1]
        rw [hv]
        simp only [List.map_cons, List.cons.injEq]
        constructor
        · intro h; omega
        · rintro ⟨he, _⟩; omega

end Cpp

/-- C1: the claim states that `Reverse` maps `Typelist<T1, ..., Tn>` to
`Typelist<Tn, ..., T1>` and maps `Typelist<>` to itself.  The code cannot do
either: the base case `class ReverseT<List, true> { using Type = List; };`
declares `Type` with the default private access of `class`, so the alias
`Reverse = typename ReverseT<List>::Type` is ill-formed for the empty typelist
and, since the recursive case instantiates `Reverse` of the tail, for every
typelist.  In the embedding the ill-formed access is `none`: `Reverse`
produces no type for any input. -/
theorem C1_reverse_ill_formed (l : Cpp.Typelist) : Cpp.Reverse l = none := by
  induction l with
  | nil => rfl
  | cons h t ih =>
    show Cpp.accessType (Cpp.ReverseTinst (h :: t)) = none
    rw [Cpp.ReverseTinst, show Cpp.accessType (Cpp.ReverseTinst t) = none from ih]
    rfl

/-- C2: for every typelist `L` and type `X`, `PopFront<PushFront<L, X>>` is
exactly `L`: pushing a type to the front and popping the front is a no-op. -/
theorem C2_popfront_pushfront (l : Cpp.Typelist) (x : Cpp.CType) :
    Cpp.PopFrontT (Cpp.PushFrontT l x) = some l := rfl

/-- C3 counterexample: the claim `Reduce<L, PushFrontT, Typelist<>> =
Reverse<L>` fails already at the concrete input `L = Typelist<>`: the left side
is the well-formed type `Typelist<>` while `Reverse<Typelist<>>` is ill-formed
(its `Type` member is private), so the two are not the same type. -/
theorem C3_counterexample :
    ¬ (Cpp.Reverse ([] : Cpp.Typelist)
        = some (Cpp.ReduceT ([] : Cpp.Typelist) Cpp.PushFrontT [])) := by
  decide

/-- C3 amended: reducing `L` with `PushFrontT` as the metafunction and
`Typelist<>` as the initial value yields the elements of `L` in reversed
order (the typelist `Reverse` is documented to produce; `Reverse<L>` itself
never compiles because the `Type` member of `ReverseT`'s base case is
private). -/
theorem C3_reduce_pushfront_is_reversal (l : Cpp.Typelist) :
    Cpp.ReduceT l Cpp.PushFrontT [] = l.reverse := by
  suffices h : ∀ (l acc : Cpp.Typelist), Cpp.ReduceT l Cpp.PushFrontT acc = l.reverse ++ acc by
    simpa using h l []
  intro l
  induction l with
  | nil => intro acc; simp [Cpp.ReduceT]
  | cons h t ih =>
    intro acc
    simp [Cpp.ReduceT, Cpp.PushFrontT, ih]

/-- C4: for a non-empty typelist `L = Typelist<H, T...>`,
`Reduce<PopFront<L>, LargerTypeT, Front<L>>` yields exactly `LargestType<L>`,
which is the earliest element of `L` of maximal `sizeof`; and `LargestType`
of the empty typelist is `char`. -/
theorem C4_reduce_largertype_is_largest (h : Cpp.CType) (t : Cpp.Typelist) :
    Cpp.ReduceT t Cpp.LargerTypeT h = Cpp.LargestTypeT (h :: t)
      ∧ Cpp.IsEarliestMax (h :: t) (Cpp.LargestTypeT (h :: t))
      ∧ Cpp.LargestTypeT ([] : Cpp.Typelist) = Cpp.CType.char :=
  ⟨by rw [Cpp.reduceT_largerTypeT, Cpp.largestTypeT_cons],
   Cpp.largestTypeT_earliest h t, rfl⟩

/-- C8: the C++98 recursive template implementation and the C++14 constexpr
implementation of the compile-time primality check agree on every natural
number, and both return `true` exactly when `N > 1` and `N` has no divisor `d`
with `2 <= d <= N / 2`. -/
theorem C8_is_prime_equivalence (N : Nat) :
    Cpp.cpp98_is_prime N = Cpp.cpp14_is_prime N ∧
      (Cpp.cpp98_is_prime N = true ↔ (1 < N ∧ ∀ d, 2 ≤ d → d ≤ N / 2 → ¬ d ∣ N)) := by
  have h98 := Cpp.cpp98_is_prime_iff N
  have h14 := Cpp.cpp14_is_prime_iff N
  have hiff : Cpp.cpp98_is_prime N = true ↔ Cpp.cpp14_is_prime N = true :=
    h98.trans h14.symm
  constructor
  · cases hb : Cpp.cpp98_is_prime N <;> cases hb2 : Cpp.cpp14_is_prime N <;>
      simp_all
  · rw [h98]
    constructor
    · rintro ⟨h1, h2⟩
      refine ⟨h1, fun d hd2 hdle hdvd => ?_⟩
      obtain ⟨c, rfl⟩ := hdvd
      exact h2 d hd2 hdle (Nat.mul_mod_right d c)
    · rintro ⟨h1, h2⟩
      refine ⟨h1, fun d hd2 hdle hmod => ?_⟩
      exact h2 d hd2 hdle (Nat.dvd_of_mod_eq_zero hmod)

/-- C8 witness: the theorem evaluated at the concrete input 10. -/
theorem C8_witness :
    Cpp.cpp98_is_prime 10 = Cpp.cpp14_is_prime 10 ∧ Cpp.cpp98_is_prime 10 = false :=
  ⟨(C8_is_prime_equivalence 10).1, by decide⟩

/-- C9: for every iterator category and non-negative distance `n`, the three
implementations `advance_dispatch`, `advance_enable` and `advance_constexpr_if`
leave the iterator at the same final position, namely the one reached by
incrementing it exactly `n` times; for negative `n`, the random-access path
moves the iterator backward (`it + n < it`) while the input-iterator loop
leaves it unchanged. -/
theorem C9_advance_agreement (tag : Cpp.IteratorTag) (it n : Int) :
    (0 ≤ n →
      Cpp.advance_dispatch tag it n = it + n ∧
      Cpp.advance_enable tag it n = it + n ∧
      Cpp.advance_constexpr_if tag it n = it + n ∧
      (fun p => p + 1)^[n.toNat] it = it + n) ∧
    (n < 0 →
      Cpp.advance_dispatch .randomAccess it n = it + n ∧ it + n < it ∧
      (Cpp.IsRandomAccessIterator tag = false →
        Cpp.advance_dispatch tag it n = it ∧
        Cpp.advance_enable tag it n = it ∧
        Cpp.advance_constexpr_if tag it n = it)) := by
  constructor
  · intro hn
    have hloop := Cpp.advance_input_loop_nonneg it n hn
    have hiter : (fun p => p + 1)^[n.toNat] it = it + n := by
      rw [Cpp.iterate_incr]
      omega
    cases tag <;>
      simp [Cpp.advance_dispatch, Cpp.advance_enable, Cpp.advance_constexpr_if,
        Cpp.IsRandomAccessIterator, hloop, hiter]
  · intro hn
    have hloop := Cpp.advance_input_loop_nonpos it n (by omega)
    refine ⟨by simp [Cpp.advance_dispatch, Cpp.IsRandomAccessIterator], by omega, ?_⟩
    intro htag
    simp [Cpp.advance_dispatch, Cpp.advance_enable, Cpp.advance_constexpr_if,
      htag, hloop]

/-- C9 witness: the theorem applied at concrete inputs, discharging both sign
hypotheses: a forward iterator at position 0 advanced by 3, and a
random-access respectively forward iterator at position 5 advanced by -2. -/
theorem C9_witness :
    Cpp.advance_dispatch .forward 0 3 = 3 ∧
    Cpp.advance_dispatch .randomAccess 5 (-2) = 3 ∧
    Cpp.advance_enable .forward 5 (-2) = 5 :=
  ⟨((C9_advance_agreement .forward 0 3).1 (by norm_num)).1,
   ((C9_advance_agreement .forward 5 (-2)).2 (by norm_num)).1,
   (((C9_advance_agreement .forward 5 (-2)).2 (by norm_num)).2.2 rfl).2.1⟩

/-- C10: two `ci_string`s compare equal exactly when they have the same length
and their characters agree after mapping both through
`ci_char_traits::to_upper` (ASCII case folding), and `c_str()` returns the
stored characters unchanged, original case included. -/
theorem C10_ci_string_equality (s t : List Nat) :
    (Cpp.ciEq ⟨s⟩ ⟨t⟩ = true ↔
      (s.length = t.length ∧ s.map Cpp.to_upper = t.map Cpp.to_upper)) ∧
    Cpp.ci_string.c_str ⟨s⟩ = s := by
  refine ⟨?_, rfl⟩
  simp only [Cpp.ciEq, Bool.and_eq_true, beq_iff_eq]
  constructor
  · rintro ⟨hl, hc⟩
    exact ⟨hl, (Cpp.ci_compare_eq_zero_iff s t hl).mp hc⟩
  · rintro ⟨hl, hm⟩
    exact ⟨hl, (Cpp.ci_compare_eq_zero_iff s t hl).mpr hm⟩

/-- C10 witness: the part_008 test case `ci_string{"AbCdE?"} == "abcde?"`,
evaluated on the concrete byte strings. -/
theorem C10_witness :
    Cpp.ciEq ⟨[65, 98, 67, 100, 69, 63]⟩ ⟨[97, 98, 99, 100, 101, 63]⟩ = true ∧
    Cpp.ci_string.c_str ⟨[65, 98, 67, 100, 69, 63]⟩ = [65, 98, 67, 100, 69, 63] :=
  ⟨(C10_ci_string_equality [65, 98, 67, 100, 69, 63] [97, 98, 99, 100, 101, 63]).1.mpr
      (by decide),
   (C10_ci_string_equality [65, 98, 67, 100, 69, 63] [97, 98, 99, 100, 101, 63]).2⟩

/-- C6: the claim that the toy `Any` throws a `BadTypeException` on a type
mismatch is contradicted by the code as written.  `Any`'s only constructor
initializes `HolderBase *held` from `std::make_unique<T>(...)`, a
`std::unique_ptr<T>` with no conversion to a raw pointer (and whose pointee
is a plain `T`, not a `Holder<T>`), and `get_value<T>`'s success path returns
`*specific_held` — a `const Holder<T>&` — as `const T&`; both templates are
therefore ill-formed on every instantiation, so no `Any` can be created and
the `throw BadTypeException{}` statement, although it is the only `throw` in
the repository, can never be compiled into a program or executed; no example
program's run lets any exception escape. -/
theorem C6_any_ill_formed :
    (∀ v : Cpp.CppValue, Cpp.Any.construct v = none) ∧
    (∀ T : Cpp.ValType, Cpp.Any.get_value_inst T = none) ∧
    (Cpp.programs.all fun p => p.thrown == none) = true :=
  ⟨fun v => rfl, fun T => rfl, by decide⟩

/-- C5: for every example program of the repository, running `main()` writes
only on standard output (every entry of its effect trace is the stdout
channel), lets no exception escape, and exits with code 0 — no file or
persistent data is written and no other I/O channel or external state is
touched. -/
theorem C5_stdout_only :
    (Cpp.programs.all fun p =>
      (p.trace.all fun e => e == Cpp.Channel.stdoutChannel)
        && (p.thrown == none) && (p.exitCode == 0)) = true := by
  decide

/-- C7 counterexample: the claim "no class maintains runtime state constrained
by a predicate that all its operations preserve" is formalized as: every
predicate on `ObjectCounter` state preserved by all its constructors and its
destructor holds of every state.  It is false: the predicate `count = number
of live objects` is preserved by every operation yet fails at the concrete
state `⟨count 1, live 0⟩`. -/
theorem C7_counterexample :
    ¬ (∀ Inv : Cpp.CounterState → Prop,
        (∀ s op, Cpp.ValidCounterOp s op → Inv s → Inv (Cpp.counterStep s op)) →
        ∀ s, Inv s) := by
  intro hclaim
  have hpres : ∀ s op, Cpp.ValidCounterOp s op →
      Cpp.CounterInv s → Cpp.CounterInv (Cpp.counterStep s op) := by
    intro s op hv hi
    cases op <;> simp_all [Cpp.counterStep, Cpp.CounterInv]
  exact absurd (hclaim Cpp.CounterInv hpres ⟨1, 0⟩) (by simp [Cpp.CounterInv])

/-- C7 amended: `ObjectCounter` does maintain a testable runtime invariant:
its static `count` starts at 0 with no objects alive, every constructor and
the destructor preserve `count = number of live objects`, `live()` reports
exactly that number whenever the invariant holds, and the invariant is a real
constraint (it fails for the state with `count = 1` and no live object).
Beyond such counter state, the repository's checkable properties are
compile-time instantiation facts. -/
theorem C7_object_counter_invariant :
    Cpp.CounterInv Cpp.counterInit ∧
    (∀ s op, Cpp.ValidCounterOp s op →
      Cpp.CounterInv s → Cpp.CounterInv (Cpp.counterStep s op)) ∧
    (∀ s, Cpp.CounterInv s → Cpp.counterLive s = s.live) ∧
    ¬ Cpp.CounterInv ⟨1, 0⟩ := by
  refine ⟨rfl, ?_, fun s hs => hs, by simp [Cpp.CounterInv]⟩
  intro s op hv hi
  cases op <;> simp_all [Cpp.counterStep, Cpp.CounterInv]

/-- C7 witness: the amended theorem applied at the concrete state with two
live objects and a destructor run, discharging the validity and invariant
hypotheses there. -/
theorem C7_witness :
    Cpp.CounterInv (Cpp.counterStep ⟨2, 2⟩ .destruct) :=
  C7_object_counter_invariant.2.1 ⟨2, 2⟩ .destruct (show (0 : Nat) < 2 by decide) rfl
